import Mathlib

/-!
Shallow embedding of `gcalendar_components.py` (the xai-gcalendar component
library) and verification of its specification claims.

Python conventions mirrored here:
* an `InArg[str]` whose value may be unset is `Option String`; an
  `InArg[list]` is `Option (List String)`;
* Python truthiness of such optional values is `strTruthy` / `listTruthy`
  (`None`, `""` and `[]` are falsy);
* a Python dict of a Google event body is the structure `GEvent`, where a
  key that is absent from the dict is a `none` field;
* `str.split(sep)` is `pySplit` (keeps empty segments, `"" → [""]`);
* raising an exception is returning `Except.error`.
-/

/-- Python truthiness of an optional string: `None` and `""` are falsy. -/
def strTruthy : Option String → Bool
  | none => false
  | some s => !(s == "")

/-- Python truthiness of an optional list: `None` and `[]` are falsy. -/
def listTruthy {α : Type} : Option (List α) → Bool
  | none => false
  | some l => !l.isEmpty

/-- Accumulator version of Python's `str.split(sep)` over char lists:
`acc` is the segment currently being built. -/
def pySplitAux (sep : Char) : List Char → List Char → List (List Char)
  | [], acc => [acc]
  | c :: rest, acc =>
    if c = sep then acc :: pySplitAux sep rest [] else pySplitAux sep rest (acc ++ [c])

/-- Python's `s.split(sep)`: splits at every occurrence of `sep`, keeping
empty segments; the empty string yields `[[]]`. -/
def pySplit (sep : Char) (l : List Char) : List (List Char) :=
  pySplitAux sep l []

/-- An `attendees` entry `{'email': e}` of an event body. -/
structure Attendee where
  email : String
deriving DecidableEq, Repr

/-- A `start`/`end` dict of an event: `{'dateTime': …, 'date': …, 'timeZone': …}`,
each key optional. -/
structure EventTime where
  dateTime : Option String
  date : Option String
  timeZone : Option String
deriving DecidableEq, Repr

/-- A Google Calendar event body (Python dict); a field is `none` exactly when
the corresponding key is absent from the dict. -/
structure GEvent where
  id : Option String
  summary : Option String
  description : Option String
  start : Option EventTime
  end_ : Option EventTime
  location : Option String
  attendees : Option (List Attendee)
  hangoutLink : Option String
deriving DecidableEq, Repr

/-- Embedding of `GetGoogleCalendarEvents.extract_meeting_id`: for a truthy
(non-empty) URL return the last `'/'`-separated segment, else `None`. -/
def GetGoogleCalendarEvents.extract_meeting_id (meet_url : String) : Option String :=
  if meet_url ≠ "" then
    some (String.mk ((pySplit '/' meet_url.data).getLastD []))
  else
    none

theorem pySplitAux_ne_nil (sep : Char) (l acc : List Char) :
    pySplitAux sep l acc ≠ [] := by
  induction l generalizing acc with
  | nil => simp [pySplitAux]
  | cons c rest ih =>
    by_cases h : c = sep <;> simp [pySplitAux, h, ih]

theorem pySplitAux_no_sep (sep : Char) (l acc : List Char) (h : sep ∉ l) :
    pySplitAux sep l acc = [acc ++ l] := by
  induction l generalizing acc with
  | nil => simp [pySplitAux]
  | cons c rest ih =>
    have hc : c ≠ sep := fun hc => h (hc ▸ List.mem_cons_self c rest)
    have hrest : sep ∉ rest := fun hr => h (List.mem_cons_of_mem c hr)
    simp [pySplitAux, hc, ih _ hrest]

theorem pySplitAux_last_after_sep (sep : Char) (seg : List Char) (hseg : sep ∉ seg) :
    ∀ (pre acc d : List Char),
      (pySplitAux sep (pre ++ sep :: seg) acc).getLastD d = seg := by
  intro pre
  induction pre with
  | nil =>
    intro acc d
    simp [pySplitAux, pySplitAux_no_sep sep seg [] hseg, List.getLastD_cons]
  | cons c pre' ih =>
    intro acc d
    rw [List.cons_append]
    by_cases h : c = sep
    · rw [show pySplitAux sep (c :: (pre' ++ sep :: seg)) acc
            = acc :: pySplitAux sep (pre' ++ sep :: seg) [] from by simp [pySplitAux, h],
        List.getLastD_cons]
      exact ih [] acc
    · rw [show pySplitAux sep (c :: (pre' ++ sep :: seg)) acc
            = pySplitAux sep (pre' ++ sep :: seg) (acc ++ [c]) from by simp [pySplitAux, h]]
      exact ih _ d

/-- Service-account credential material, as resolved by
`AuthenticateGoogleCalendar.execute`: either loaded from a file path, or
decoded from the `GOOGLE_SERVICE_ACCOUNT_CREDENTIALS` environment blob;
`with_subject` derives delegated (impersonated) credentials. -/
inductive Credentials where
  | fromFile (path : String)
  | fromEnv (encoded_json : String)
  | withSubject (base : Credentials) (subject : String)
deriving DecidableEq, Repr

/-- The client handle produced by `build('calendar', 'v3', credentials=…)`. -/
structure ServiceHandle where
  api : String
  version : String
  credentials : Credentials
deriving DecidableEq, Repr

/-- The ambient Context: a mutable string-keyed mapping; only the
`"service"` entry matters to this library. -/
abbrev Ctx := List (String × ServiceHandle)

/-- Embedding of Python's `ctx.update(\x7b key: v \x7d)`: overwrite the entry
for `key`. -/
def ctxUpdate (ctx : Ctx) (key : String) (v : ServiceHandle) : Ctx :=
  (key, v) :: List.filter (fun p => p.1 != key) ctx

/-- The process environment seen by `AuthenticateGoogleCalendar.execute`:
the `os.path.exists` oracle and the optional
`GOOGLE_SERVICE_ACCOUNT_CREDENTIALS` variable. -/
structure AuthEnv where
  fileExists : String → Bool
  envVar : Option String

/-- Embedding of the client-building tail of `AuthenticateGoogleCalendar.execute`:
`if self.impersonate_user_account.value is not None` derive delegated
credentials, else use the base credentials directly. -/
def AuthenticateGoogleCalendar.buildService
    (impersonate_user_account : Option String) (credentials : Credentials) : ServiceHandle :=
  if impersonate_user_account.isSome then
    { api := "calendar", version := "v3",
      credentials := Credentials.withSubject credentials (impersonate_user_account.getD "") }
  else
    { api := "calendar", version := "v3", credentials := credentials }

/-- Embedding of `AuthenticateGoogleCalendar.execute`: resolve credentials from
the file path when it is truthy and the file exists, else from the environment
variable (raising `ValueError` when that is falsy), build the service handle and
store it in the Context under `"service"`. -/
def AuthenticateGoogleCalendar.execute
    (service_account_json impersonate_user_account : Option String)
    (env : AuthEnv) (ctx : Ctx) : Except String Ctx :=
  let credsRes : Except String Credentials :=
    if strTruthy service_account_json
        && env.fileExists (service_account_json.getD "") then
      Except.ok (Credentials.fromFile (service_account_json.getD ""))
    else
      if strTruthy env.envVar then
        Except.ok (Credentials.fromEnv (env.envVar.getD ""))
      else
        Except.error "Neither a valid file path nor GOOGLE_SERVICE_ACCOUNT_CREDENTIALS environment variable was found."
  match credsRes with
  | Except.error e => Except.error e
  | Except.ok credentials =>
    let service := AuthenticateGoogleCalendar.buildService impersonate_user_account credentials
    Except.ok (ctxUpdate ctx "service" service)

/-- The caller's view of running Authenticate: a raised exception propagates
and leaves the Context object unmodified. -/
def AuthenticateGoogleCalendar.run
    (service_account_json impersonate_user_account : Option String)
    (env : AuthEnv) (ctx : Ctx) : Ctx :=
  match AuthenticateGoogleCalendar.execute service_account_json impersonate_user_account env ctx with
  | Except.ok ctx2 => ctx2
  | Except.error _ => ctx

/-- A remote event as returned by the events-list API, with the keys read by
`GetGoogleCalendarEvents.execute` (`start`/`end` are mandatory keys there). -/
structure RemoteEvent where
  summary : Option String
  start : EventTime
  end_ : EventTime
  location : Option String
  attendees : Option (List Attendee)
  hangoutLink : Option String
deriving DecidableEq, Repr

/-- One flattened `event_details` record built by
`GetGoogleCalendarEvents.execute`; all seven keys are always present. -/
structure EventDetails where
  event_name : String
  start_time : Option String
  end_time : Option String
  location : String
  participants : List String
  gmeet_link : String
  meeting_id : Option String
deriving DecidableEq, Repr

/-- Embedding of the per-event flattening in the body of the loop of
`GetGoogleCalendarEvents.execute`. -/
def GetGoogleCalendarEvents.flattenEvent (event : RemoteEvent) : EventDetails :=
  { event_name := event.summary.getD "No Title",
    start_time :=
      match event.start.dateTime with
      | some v => some v
      | none => event.start.date,
    end_time :=
      match event.end_.dateTime with
      | some v => some v
      | none => event.end_.date,
    location := event.location.getD "",
    participants := (event.attendees.getD []).map Attendee.email,
    gmeet_link := event.hangoutLink.getD "",
    meeting_id := GetGoogleCalendarEvents.extract_meeting_id (event.hangoutLink.getD "") }

/-- The value stored into `self.events.value`: either the sentinel message
dict or the flattened events list. -/
inductive EventsOutput where
  | message (msg : String)
  | events (events_list : List EventDetails)
deriving DecidableEq, Repr

/-- Embedding of `GetGoogleCalendarEvents.execute` applied to the `items` of
the remote response: sentinel payload when empty, else the accumulation loop
appending one flattened record per event. -/
def GetGoogleCalendarEvents.processEvents (events : List RemoteEvent) : EventsOutput :=
  if events.isEmpty then
    EventsOutput.message "No events found for the specified time range."
  else
    EventsOutput.events
      (events.foldl
        (fun events_list event => events_list ++ [GetGoogleCalendarEvents.flattenEvent event]) [])

/-- The inputs of `CreateGoogleCalendarEvent` (`InCompArg` fields are plain,
`InArg` fields optional). -/
structure CreateInputs where
  summary : String
  description : Option String
  start_time : String
  end_time : String
  location : Option String
  participants : Option (List String)
  calendar_id : Option String
deriving DecidableEq, Repr

/-- Embedding of the event-dict assembly in `CreateGoogleCalendarEvent.execute`:
summary/start/end always present (UTC timezone on start/end); each optional
key added only when its input is truthy. -/
def CreateGoogleCalendarEvent.buildEvent (inp : CreateInputs) : GEvent :=
  let event : GEvent :=
    { id := none,
      summary := some inp.summary,
      description := none,
      start := some { dateTime := some inp.start_time, date := none, timeZone := some "UTC" },
      end_ := some { dateTime := some inp.end_time, date := none, timeZone := some "UTC" },
      location := none,
      attendees := none,
      hangoutLink := none }
  let event :=
    if strTruthy inp.description then { event with description := inp.description } else event
  let event :=
    if strTruthy inp.location then { event with location := inp.location } else event
  let event :=
    if listTruthy inp.participants then
      { event with
          attendees := some ((inp.participants.getD []).map (fun participant => { email := participant })) }
    else event
  event

/-- One call to the remote events API, with the arguments this library passes. -/
structure EventsApiCall where
  method : String
  calendarId : Option String
  eventId : Option String
  body : Option GEvent
  sendUpdates : Option String
deriving DecidableEq, Repr

/-- The `events().insert(…)` call issued by `CreateGoogleCalendarEvent.execute`. -/
def CreateGoogleCalendarEvent.insertCall (inp : CreateInputs) : EventsApiCall :=
  { method := "insert", calendarId := inp.calendar_id, eventId := none,
    body := some (CreateGoogleCalendarEvent.buildEvent inp), sendUpdates := some "all" }

/-- Embedding of `self.event_id.value = created_event['id']`: a mandatory key
access, raising `KeyError` when the response omits `id`. -/
def CreateGoogleCalendarEvent.outputId (created_event : GEvent) : Except String String :=
  match created_event.id with
  | some i => Except.ok i
  | none => Except.error "KeyError: id"

/-- Embedding of `cal_id = self.calendar_id.value if self.calendar_id.value else "primary"`. -/
def defaultCalId (calendar_id : Option String) : String :=
  if strTruthy calendar_id then calendar_id.getD "" else "primary"

/-- The inputs of `ModifyGoogleCalendarEvent` (all `InArg`, hence optional). -/
structure ModifyInputs where
  event_id : Option String
  new_summary : Option String
  new_description : Option String
  new_start_time : Option String
  new_end_time : Option String
  new_location : Option String
  new_participants : Option (List String)
  calendar_id : Option String
deriving DecidableEq, Repr

/-- Embedding of the merge-on-supplied section of
`ModifyGoogleCalendarEvent.execute`: each field of the fetched event is
overwritten only when its `new_*` input is truthy. -/
def ModifyGoogleCalendarEvent.applyUpdates (inp : ModifyInputs) (event : GEvent) : GEvent :=
  let event :=
    if strTruthy inp.new_summary then { event with summary := inp.new_summary } else event
  let event :=
    if strTruthy inp.new_description then { event with description := inp.new_description } else event
  let event :=
    if strTruthy inp.new_start_time then
      { event with start := some { dateTime := inp.new_start_time, date := none, timeZone := some "UTC" } }
    else event
  let event :=
    if strTruthy inp.new_end_time then
      { event with end_ := some { dateTime := inp.new_end_time, date := none, timeZone := some "UTC" } }
    else event
  let event :=
    if strTruthy inp.new_location then { event with location := inp.new_location } else event
  let event :=
    if listTruthy inp.new_participants then
      { event with
          attendees := some ((inp.new_participants.getD []).map (fun participant => { email := participant })) }
    else event
  event

/-- The `events().update(…)` call issued by `ModifyGoogleCalendarEvent.execute`
on the fetched event. -/
def ModifyGoogleCalendarEvent.updateCall (inp : ModifyInputs) (event : GEvent) : EventsApiCall :=
  { method := "update", calendarId := some (defaultCalId inp.calendar_id), eventId := inp.event_id,
    body := some (ModifyGoogleCalendarEvent.applyUpdates inp event), sendUpdates := some "all" }

/-- The inputs of `UpdateGoogleCalendarEventAttendees` (`event_id` and
`attendees` are `InCompArg`, `calendar_id` optional). -/
structure UpdateAttendeesInputs where
  event_id : String
  attendees : List String
  calendar_id : Option String
deriving DecidableEq, Repr

/-- Embedding of `event['attendees'] = [\x7b'email': email\x7d for email in self.attendees.value]`:
the attendee list of the fetched event is unconditionally replaced. -/
def UpdateGoogleCalendarEventAttendees.newBody (attendees : List String) (event : GEvent) : GEvent :=
  { event with attendees := some (attendees.map (fun email => { email := email })) }

/-- The `events().update(…)` call issued by
`UpdateGoogleCalendarEventAttendees.execute` (note: no `sendUpdates` argument). -/
def UpdateGoogleCalendarEventAttendees.updateCall
    (inp : UpdateAttendeesInputs) (event : GEvent) : EventsApiCall :=
  { method := "update", calendarId := some (defaultCalId inp.calendar_id),
    eventId := some inp.event_id,
    body := some (UpdateGoogleCalendarEventAttendees.newBody inp.attendees event),
    sendUpdates := none }

/-- Embedding of `self.updated_event_id.value = updated_event.get('id', '')`. -/
def UpdateGoogleCalendarEventAttendees.outputId (updated_event : GEvent) : String :=
  updated_event.id.getD ""

/-- The parsed JSON payload read by `ExtractEventFromJsonString.execute`; a
field is `none` exactly when the key is absent from the parsed dict. -/
structure JsonPayload where
  summary : Option String
  start_time : Option String
  end_time : Option String
  location : Option String
  participants : Option (List String)
deriving DecidableEq, Repr

/-- The five output values of `ExtractEventFromJsonString`. -/
structure ExtractedEvent where
  summary : String
  start_time : String
  end_time : String
  location : String
  participants : List String
deriving DecidableEq, Repr

/-- Embedding of `ExtractEventFromJsonString.execute` on the parsed payload:
`summary`, `start_time`, `end_time` are mandatory key accesses (raising
`KeyError`); `location` and `participants` use `.get` defaults. The operation
is a pure function of the payload: no remote call, no Context access. -/
def ExtractEventFromJsonString.extract (data : JsonPayload) : Except String ExtractedEvent :=
  match data.summary with
  | none => Except.error "KeyError: summary"
  | some s =>
    match data.start_time with
    | none => Except.error "KeyError: start_time"
    | some st =>
      match data.end_time with
      | none => Except.error "KeyError: end_time"
      | some en =>
        Except.ok
          { summary := s, start_time := st, end_time := en,
            location := data.location.getD "",
            participants := data.participants.getD [] }

theorem pySplit_last_after_sep (sep : Char) (pre seg : List Char) (hseg : sep ∉ seg) :
    (pySplit sep (pre ++ sep :: seg)).getLastD [] = seg :=
  pySplitAux_last_after_sep sep seg hseg pre [] []

theorem pySplit_no_sep (sep : Char) (l : List Char) (h : sep ∉ l) :
    pySplit sep l = [l] := by
  simpa using pySplitAux_no_sep sep l [] h

/-- C6: for every non-empty conferencing URL, `extract_meeting_id` returns the
final `'/'`-separated segment of the URL (for a URL with no `'/'`, the whole
URL is its one segment), and for the empty URL it returns `None`. -/
theorem extract_meeting_id_final_segment :
    (∀ pre seg : String, ('/' : Char) ∉ seg.data →
        GetGoogleCalendarEvents.extract_meeting_id (pre ++ "/" ++ seg) = some seg)
    ∧ (∀ url : String, url ≠ "" → ('/' : Char) ∉ url.data →
        GetGoogleCalendarEvents.extract_meeting_id url = some url)
    ∧ GetGoogleCalendarEvents.extract_meeting_id "" = none := by
  refine ⟨?_, ?_, rfl⟩
  · intro pre seg hseg
    have hdata : (pre ++ "/" ++ seg).data = pre.data ++ '/' :: seg.data := by
      simp [String.data_append]
    have hne : (pre ++ "/" ++ seg) ≠ "" := by
      intro h
      have := congrArg String.data h
      rw [hdata] at this
      simp at this
    rw [GetGoogleCalendarEvents.extract_meeting_id, if_pos hne, hdata,
      pySplit_last_after_sep '/' pre.data seg.data hseg]
  · intro url hurl hslash
    rw [GetGoogleCalendarEvents.extract_meeting_id, if_pos hurl,
      pySplit_no_sep '/' url.data hslash]
    rfl

theorem extract_meeting_id_witness :
    GetGoogleCalendarEvents.extract_meeting_id
        ("https://meet.google.com" ++ "/" ++ "abc-defg-hij") = some "abc-defg-hij" :=
  extract_meeting_id_final_segment.1 "https://meet.google.com" "abc-defg-hij" (by decide)

/-- C5: `ExtractEventFromJsonString` on a parsed payload: when the three
required keys `summary`, `start_time`, `end_time` are all present it succeeds,
with `location` defaulting to `""` and `participants` to `[]` when absent;
when any required key is missing it raises a lookup (`KeyError`) error. The
embedding is a pure function of the payload alone (no remote call, no
Context). -/
theorem extract_event_required_and_defaults :
    (∀ (data : JsonPayload) (s st en : String),
        data.summary = some s → data.start_time = some st → data.end_time = some en →
        ExtractEventFromJsonString.extract data =
          Except.ok
            { summary := s, start_time := st, end_time := en,
              location := data.location.getD "",
              participants := data.participants.getD [] })
    ∧ (∀ data : JsonPayload,
        data.summary = none ∨ data.start_time = none ∨ data.end_time = none →
        ∃ msg, ExtractEventFromJsonString.extract data = Except.error msg) := by
  constructor
  · intro data s st en h1 h2 h3
    simp [ExtractEventFromJsonString.extract, h1, h2, h3]
  · intro data h
    rcases h with h | h | h
    · exact ⟨"KeyError: summary", by simp [ExtractEventFromJsonString.extract, h]⟩
    · cases hs : data.summary
      · exact ⟨"KeyError: summary", by simp [ExtractEventFromJsonString.extract, hs]⟩
      · exact ⟨"KeyError: start_time", by simp [ExtractEventFromJsonString.extract, hs, h]⟩
    · cases hs : data.summary
      · exact ⟨"KeyError: summary", by simp [ExtractEventFromJsonString.extract, hs]⟩
      · cases hst : data.start_time
        · exact ⟨"KeyError: start_time", by simp [ExtractEventFromJsonString.extract, hs, hst]⟩
        · exact ⟨"KeyError: end_time", by simp [ExtractEventFromJsonString.extract, hs, hst, h]⟩

theorem extract_event_witness :
    ExtractEventFromJsonString.extract ⟨some "Lunch", some "T1", some "T2", none, none⟩ =
      Except.ok ⟨"Lunch", "T1", "T2", "", []⟩
    ∧ ∃ msg, ExtractEventFromJsonString.extract ⟨none, some "T1", some "T2", none, none⟩ =
        Except.error msg :=
  ⟨extract_event_required_and_defaults.1 ⟨some "Lunch", some "T1", some "T2", none, none⟩
      "Lunch" "T1" "T2" rfl rfl rfl,
    extract_event_required_and_defaults.2 ⟨none, some "T1", some "T2", none, none⟩ (Or.inl rfl)⟩

/-- C2: when the provided file path is falsy (empty/`None`) or the
`os.path.exists` check fails, and the `GOOGLE_SERVICE_ACCOUNT_CREDENTIALS`
environment variable is absent, Authenticate raises the `ValueError` before any
client is built, and the Context is left unchanged (no `"service"` entry is
stored). -/
theorem authenticate_error_when_no_credentials :
    ∀ (service_account_json impersonate_user_account : Option String) (env : AuthEnv) (ctx : Ctx),
      (service_account_json.getD "" = "" ∨
        env.fileExists (service_account_json.getD "") = false) →
      env.envVar = none →
      AuthenticateGoogleCalendar.execute service_account_json impersonate_user_account env ctx =
        Except.error "Neither a valid file path nor GOOGLE_SERVICE_ACCOUNT_CREDENTIALS environment variable was found."
      ∧ AuthenticateGoogleCalendar.run service_account_json impersonate_user_account env ctx = ctx := by
  intro sa imp env ctx h henv
  have hcond : ¬ ((strTruthy sa && env.fileExists (sa.getD "")) = true) := by
    intro hc
    rw [Bool.and_eq_true] at hc
    obtain ⟨h1, h2⟩ := hc
    rcases h with h | h
    · cases sa with
      | none => simp [strTruthy] at h1
      | some s =>
        simp only [Option.getD_some] at h
        subst h
        simp [strTruthy] at h1
    · simp [h] at h2
  have hexec :
      AuthenticateGoogleCalendar.execute sa imp env ctx =
        Except.error "Neither a valid file path nor GOOGLE_SERVICE_ACCOUNT_CREDENTIALS environment variable was found." := by
    simp only [AuthenticateGoogleCalendar.execute, henv]
    rw [if_neg hcond]
    rfl
  refine ⟨hexec, ?_⟩
  simp only [AuthenticateGoogleCalendar.run, hexec]

theorem authenticate_error_witness :
    AuthenticateGoogleCalendar.execute none none ⟨fun _ => false, none⟩ [] =
      Except.error "Neither a valid file path nor GOOGLE_SERVICE_ACCOUNT_CREDENTIALS environment variable was found."
    ∧ AuthenticateGoogleCalendar.run none none ⟨fun _ => false, none⟩ [] = [] :=
  authenticate_error_when_no_credentials none none ⟨fun _ => false, none⟩ [] (Or.inl rfl) rfl

/-- C8: the impersonation branch of Authenticate is taken exactly when the
subject input is not `None`; in particular an empty-string subject still
derives delegated credentials, even though the empty string is falsy under the
truthiness test every other optional input uses. -/
theorem authenticate_impersonation_is_not_none :
    ∀ (impersonate_user_account : Option String) (credentials : Credentials),
      AuthenticateGoogleCalendar.buildService impersonate_user_account credentials =
        (match impersonate_user_account with
          | some subject =>
            { api := "calendar", version := "v3",
              credentials := Credentials.withSubject credentials subject }
          | none => { api := "calendar", version := "v3", credentials := credentials })
      ∧ (AuthenticateGoogleCalendar.buildService (some "") credentials).credentials =
          Credentials.withSubject credentials ""
      ∧ strTruthy (some "") = false := by
  intro imp c
  refine ⟨?_, rfl, rfl⟩
  cases imp <;> simp [AuthenticateGoogleCalendar.buildService]

/-- C10: the update call of UpdateAttendees carries no `sendUpdates` flag,
while the insert of Create and the update of Modify always send
`sendUpdates='all'`. -/
theorem send_updates_flags :
    ∀ (uinp : UpdateAttendeesInputs) (ufetched : GEvent) (cinp : CreateInputs)
      (minp : ModifyInputs) (mfetched : GEvent),
      (UpdateGoogleCalendarEventAttendees.updateCall uinp ufetched).sendUpdates = none
      ∧ (CreateGoogleCalendarEvent.insertCall cinp).sendUpdates = some "all"
      ∧ (ModifyGoogleCalendarEvent.updateCall minp mfetched).sendUpdates = some "all" := by
  intro uinp ufetched cinp minp mfetched
  exact ⟨rfl, rfl, rfl⟩

theorem applyUpdates_eq (inp : ModifyInputs) (event : GEvent) :
    ModifyGoogleCalendarEvent.applyUpdates inp event =
      { event with
          summary := if strTruthy inp.new_summary then inp.new_summary else event.summary,
          description :=
            if strTruthy inp.new_description then inp.new_description else event.description,
          start :=
            if strTruthy inp.new_start_time then
              some { dateTime := inp.new_start_time, date := none, timeZone := some "UTC" }
            else event.start,
          end_ :=
            if strTruthy inp.new_end_time then
              some { dateTime := inp.new_end_time, date := none, timeZone := some "UTC" }
            else event.end_,
          location := if strTruthy inp.new_location then inp.new_location else event.location,
          attendees :=
            if listTruthy inp.new_participants then
              some ((inp.new_participants.getD []).map (fun participant => { email := participant }))
            else event.attendees } := by
  simp only [ModifyGoogleCalendarEvent.applyUpdates]
  by_cases h1 : strTruthy inp.new_summary <;>
  by_cases h2 : strTruthy inp.new_description <;>
  by_cases h3 : strTruthy inp.new_start_time <;>
  by_cases h4 : strTruthy inp.new_end_time <;>
  by_cases h5 : strTruthy inp.new_location <;>
  by_cases h6 : listTruthy inp.new_participants <;>
  simp [h1, h2, h3, h4, h5, h6]

/-- C1: Modify overlays the fetched event field-by-field: a field is
overwritten exactly when its `new_*` input is truthy, and every other field
(including untouched keys such as `id` and `hangoutLink`) is left exactly as
fetched; in particular, supplying only `new_location` changes only the
location. -/
theorem modify_merge_on_supplied :
    ∀ (inp : ModifyInputs) (event : GEvent),
      ((ModifyGoogleCalendarEvent.applyUpdates inp event).summary =
          if strTruthy inp.new_summary then inp.new_summary else event.summary)
      ∧ ((ModifyGoogleCalendarEvent.applyUpdates inp event).description =
          if strTruthy inp.new_description then inp.new_description else event.description)
      ∧ ((ModifyGoogleCalendarEvent.applyUpdates inp event).start =
          if strTruthy inp.new_start_time then
            some { dateTime := inp.new_start_time, date := none, timeZone := some "UTC" }
          else event.start)
      ∧ ((ModifyGoogleCalendarEvent.applyUpdates inp event).end_ =
          if strTruthy inp.new_end_time then
            some { dateTime := inp.new_end_time, date := none, timeZone := some "UTC" }
          else event.end_)
      ∧ ((ModifyGoogleCalendarEvent.applyUpdates inp event).location =
          if strTruthy inp.new_location then inp.new_location else event.location)
      ∧ ((ModifyGoogleCalendarEvent.applyUpdates inp event).attendees =
          if listTruthy inp.new_participants then
            some ((inp.new_participants.getD []).map (fun participant => { email := participant }))
          else event.attendees)
      ∧ ((ModifyGoogleCalendarEvent.applyUpdates inp event).id = event.id)
      ∧ ((ModifyGoogleCalendarEvent.applyUpdates inp event).hangoutLink = event.hangoutLink)
      ∧ (∀ (event_id calendar_id : Option String) (loc : String) (e : GEvent),
          ModifyGoogleCalendarEvent.applyUpdates
              ⟨event_id, none, none, none, none, some loc, none, calendar_id⟩ e =
            if loc = "" then e else { e with location := some loc }) := by
  intro inp event
  rw [applyUpdates_eq]
  refine ⟨rfl, rfl, rfl, rfl, rfl, rfl, rfl, rfl, ?_⟩
  intro event_id calendar_id loc e
  rw [applyUpdates_eq]
  by_cases hl : loc = ""
  · simp [strTruthy, listTruthy, hl]
  · simp [strTruthy, listTruthy, hl]

theorem buildEvent_eq (inp : CreateInputs) :
    CreateGoogleCalendarEvent.buildEvent inp =
      { id := none,
        summary := some inp.summary,
        description := if strTruthy inp.description then inp.description else none,
        start := some { dateTime := some inp.start_time, date := none, timeZone := some "UTC" },
        end_ := some { dateTime := some inp.end_time, date := none, timeZone := some "UTC" },
        location := if strTruthy inp.location then inp.location else none,
        attendees :=
          if listTruthy inp.participants then
            some ((inp.participants.getD []).map (fun participant => { email := participant }))
          else none,
        hangoutLink := none } := by
  simp only [CreateGoogleCalendarEvent.buildEvent]
  by_cases h1 : strTruthy inp.description <;>
  by_cases h2 : strTruthy inp.location <;>
  by_cases h3 : listTruthy inp.participants <;>
  simp [h1, h2, h3]

/-- C3: the outgoing created-event record always carries summary, start and
end (start/end tagged with timezone UTC); each optional key is present in the
record exactly when its input is truthy (so an empty string does not appear at
all); the insert call sends `sendUpdates='all'` with that record as body, and
the id assigned by the remote response is returned. -/
theorem create_event_record :
    ∀ (inp : CreateInputs) (created_event : GEvent) (i : String),
      (created_event.id = some i →
        CreateGoogleCalendarEvent.outputId created_event = Except.ok i)
      ∧ ((CreateGoogleCalendarEvent.buildEvent inp).summary = some inp.summary)
      ∧ ((CreateGoogleCalendarEvent.buildEvent inp).start =
          some { dateTime := some inp.start_time, date := none, timeZone := some "UTC" })
      ∧ ((CreateGoogleCalendarEvent.buildEvent inp).end_ =
          some { dateTime := some inp.end_time, date := none, timeZone := some "UTC" })
      ∧ ((CreateGoogleCalendarEvent.buildEvent inp).description =
          if strTruthy inp.description then inp.description else none)
      ∧ ((CreateGoogleCalendarEvent.buildEvent inp).location =
          if strTruthy inp.location then inp.location else none)
      ∧ ((CreateGoogleCalendarEvent.buildEvent inp).attendees =
          if listTruthy inp.participants then
            some ((inp.participants.getD []).map (fun participant => { email := participant }))
          else none)
      ∧ ((CreateGoogleCalendarEvent.buildEvent inp).description.isSome = strTruthy inp.description)
      ∧ ((CreateGoogleCalendarEvent.buildEvent inp).location.isSome = strTruthy inp.location)
      ∧ ((CreateGoogleCalendarEvent.buildEvent inp).attendees.isSome = listTruthy inp.participants)
      ∧ ((CreateGoogleCalendarEvent.insertCall inp).sendUpdates = some "all")
      ∧ ((CreateGoogleCalendarEvent.insertCall inp).body =
          some (CreateGoogleCalendarEvent.buildEvent inp)) := by
  intro inp created_event i
  refine ⟨?_, ?_, ?_, ?_, ?_, ?_, ?_, ?_, ?_, ?_, rfl, rfl⟩
  · intro hid
    simp [CreateGoogleCalendarEvent.outputId, hid]
  all_goals rw [buildEvent_eq]
  · cases hd : inp.description with
    | none => simp [strTruthy]
    | some s => by_cases hs : s = "" <;> simp [strTruthy, hs]
  · cases hd : inp.location with
    | none => simp [strTruthy]
    | some s => by_cases hs : s = "" <;> simp [strTruthy, hs]
  · cases hd : inp.participants with
    | none => simp [listTruthy]
    | some l => cases l <;> simp [listTruthy]

theorem create_event_record_witness :
    CreateGoogleCalendarEvent.outputId
        ⟨some "evt1", none, none, none, none, none, none, none⟩ = Except.ok "evt1" := by
  obtain ⟨h, -⟩ :=
    create_event_record ⟨"S", none, "2025-01-01T10:00:00Z", "2025-01-01T11:00:00Z", none, none, none⟩
      ⟨some "evt1", none, none, none, none, none, none, none⟩ "evt1"
  exact h rfl

/-- C4: UpdateAttendees unconditionally replaces the entire attendee list of
the fetched event with the supplied list (so attendees not in the new list are
gone), every other field of the fetched record is submitted unchanged, and the
returned value is the updated event's id, or `""` when the response omits it. -/
theorem update_attendees_full_replace :
    ∀ (attendees : List String) (event : GEvent) (inp : UpdateAttendeesInputs),
      ((UpdateGoogleCalendarEventAttendees.newBody attendees event).attendees =
          some (attendees.map (fun email => { email := email })))
      ∧ ((UpdateGoogleCalendarEventAttendees.newBody attendees event).id = event.id)
      ∧ ((UpdateGoogleCalendarEventAttendees.newBody attendees event).summary = event.summary)
      ∧ ((UpdateGoogleCalendarEventAttendees.newBody attendees event).description =
          event.description)
      ∧ ((UpdateGoogleCalendarEventAttendees.newBody attendees event).start = event.start)
      ∧ ((UpdateGoogleCalendarEventAttendees.newBody attendees event).end_ = event.end_)
      ∧ ((UpdateGoogleCalendarEventAttendees.newBody attendees event).location = event.location)
      ∧ ((UpdateGoogleCalendarEventAttendees.newBody attendees event).hangoutLink =
          event.hangoutLink)
      ∧ ((UpdateGoogleCalendarEventAttendees.updateCall inp event).body =
          some (UpdateGoogleCalendarEventAttendees.newBody inp.attendees event))
      ∧ (∀ (updated : GEvent) (i : String), updated.id = some i →
          UpdateGoogleCalendarEventAttendees.outputId updated = i)
      ∧ (∀ updated : GEvent, updated.id = none →
          UpdateGoogleCalendarEventAttendees.outputId updated = "") := by
  intro attendees event inp
  refine ⟨rfl, rfl, rfl, rfl, rfl, rfl, rfl, rfl, rfl, ?_, ?_⟩
  · intro updated i h
    simp [UpdateGoogleCalendarEventAttendees.outputId, h]
  · intro updated h
    simp [UpdateGoogleCalendarEventAttendees.outputId, h]

theorem update_attendees_witness :
    (UpdateGoogleCalendarEventAttendees.newBody ["a@x.com", "b@x.com"]
        ⟨none, none, none, none, none, none, some [⟨"c@y.com"⟩], none⟩).attendees =
      some [⟨"a@x.com"⟩, ⟨"b@x.com"⟩]
    ∧ UpdateGoogleCalendarEventAttendees.outputId
        ⟨some "u1", none, none, none, none, none, none, none⟩ = "u1"
    ∧ UpdateGoogleCalendarEventAttendees.outputId
        ⟨none, none, none, none, none, none, none, none⟩ = "" := by
  obtain ⟨hrep, -, -, -, -, -, -, -, -, hid, hnone⟩ :=
    update_attendees_full_replace ["a@x.com", "b@x.com"]
      ⟨none, none, none, none, none, none, some [⟨"c@y.com"⟩], none⟩ ⟨"e1", ["a@x.com"], none⟩
  exact ⟨hrep, hid _ "u1" rfl, hnone _ rfl⟩

theorem foldl_append_flatten (l : List RemoteEvent) :
    ∀ acc : List EventDetails,
      l.foldl (fun events_list event =>
          events_list ++ [GetGoogleCalendarEvents.flattenEvent event]) acc
        = acc ++ l.map GetGoogleCalendarEvents.flattenEvent := by
  induction l with
  | nil => intro acc; simp
  | cons e rest ih => intro acc; simp [ih]

/-- C7: on an empty remote response the Read-Events output is the sentinel
"no events found" payload, and otherwise it is the list of flattened event
summaries, one per returned event, in the order the remote API returned them. -/
theorem get_events_output :
    ∀ events : List RemoteEvent,
      (events = [] → GetGoogleCalendarEvents.processEvents events =
          EventsOutput.message "No events found for the specified time range.")
      ∧ (events ≠ [] → GetGoogleCalendarEvents.processEvents events =
          EventsOutput.events (events.map GetGoogleCalendarEvents.flattenEvent)) := by
  intro events
  constructor
  · intro h
    subst h
    rfl
  · intro h
    have hne : events.isEmpty = false := by
      cases events with
      | nil => exact absurd rfl h
      | cons a l => rfl
    simp [GetGoogleCalendarEvents.processEvents, hne, foldl_append_flatten]

theorem get_events_witness :
    GetGoogleCalendarEvents.processEvents [] =
      EventsOutput.message "No events found for the specified time range."
    ∧ GetGoogleCalendarEvents.processEvents
        [⟨some "Standup", ⟨some "T1", none, none⟩, ⟨some "T2", none, none⟩, none, none, none⟩] =
      EventsOutput.events
        [GetGoogleCalendarEvents.flattenEvent
          ⟨some "Standup", ⟨some "T1", none, none⟩, ⟨some "T2", none, none⟩, none, none, none⟩] := by
  refine ⟨(get_events_output []).1 rfl, ?_⟩
  have h :=
    (get_events_output
      [⟨some "Standup", ⟨some "T1", none, none⟩, ⟨some "T2", none, none⟩, none, none, none⟩]).2
      (by simp)
  simpa using h

/-- C9: every flattened event summary defines all seven output keys even when
the remote event omits optional fields: a missing summary becomes "No Title",
start/end fall back from `dateTime` to `date`, a missing location or
conferencing link becomes `""` (with an absent meeting id), and missing
attendees become an empty participants list. -/
theorem flatten_event_defaults :
    ∀ event : RemoteEvent,
      (event.summary = none → (GetGoogleCalendarEvents.flattenEvent event).event_name = "No Title")
      ∧ (∀ s, event.summary = some s →
          (GetGoogleCalendarEvents.flattenEvent event).event_name = s)
      ∧ (event.start.dateTime = none →
          (GetGoogleCalendarEvents.flattenEvent event).start_time = event.start.date)
      ∧ (∀ v, event.start.dateTime = some v →
          (GetGoogleCalendarEvents.flattenEvent event).start_time = some v)
      ∧ (event.end_.dateTime = none →
          (GetGoogleCalendarEvents.flattenEvent event).end_time = event.end_.date)
      ∧ (∀ v, event.end_.dateTime = some v →
          (GetGoogleCalendarEvents.flattenEvent event).end_time = some v)
      ∧ (event.location = none → (GetGoogleCalendarEvents.flattenEvent event).location = "")
      ∧ (event.attendees = none →
          (GetGoogleCalendarEvents.flattenEvent event).participants = [])
      ∧ (event.hangoutLink = none →
          (GetGoogleCalendarEvents.flattenEvent event).gmeet_link = ""
          ∧ (GetGoogleCalendarEvents.flattenEvent event).meeting_id = none) := by
  intro event
  refine ⟨?_, ?_, ?_, ?_, ?_, ?_, ?_, ?_, ?_⟩
  · intro h
    simp [GetGoogleCalendarEvents.flattenEvent, h]
  · intro s h
    simp [GetGoogleCalendarEvents.flattenEvent, h]
  · intro h
    simp [GetGoogleCalendarEvents.flattenEvent, h]
  · intro v h
    simp [GetGoogleCalendarEvents.flattenEvent, h]
  · intro h
    simp [GetGoogleCalendarEvents.flattenEvent, h]
  · intro v h
    simp [GetGoogleCalendarEvents.flattenEvent, h]
  · intro h
    simp [GetGoogleCalendarEvents.flattenEvent, h]
  · intro h
    simp [GetGoogleCalendarEvents.flattenEvent, h]
  · intro h
    refine ⟨?_, ?_⟩
    · simp [GetGoogleCalendarEvents.flattenEvent, h]
    · simp [GetGoogleCalendarEvents.flattenEvent, h,
        GetGoogleCalendarEvents.extract_meeting_id]

theorem flatten_event_defaults_witness :
    (GetGoogleCalendarEvents.flattenEvent
        ⟨none, ⟨none, some "2025-01-01", none⟩, ⟨none, some "2025-01-02", none⟩,
          none, none, none⟩).event_name = "No Title"
    ∧ (GetGoogleCalendarEvents.flattenEvent
        ⟨none, ⟨none, some "2025-01-01", none⟩, ⟨none, some "2025-01-02", none⟩,
          none, none, none⟩).start_time = some "2025-01-01"
    ∧ (GetGoogleCalendarEvents.flattenEvent
        ⟨none, ⟨none, some "2025-01-01", none⟩, ⟨none, some "2025-01-02", none⟩,
          none, none, none⟩).end_time = some "2025-01-02"
    ∧ (GetGoogleCalendarEvents.flattenEvent
        ⟨none, ⟨none, some "2025-01-01", none⟩, ⟨none, some "2025-01-02", none⟩,
          none, none, none⟩).location = ""
    ∧ (GetGoogleCalendarEvents.flattenEvent
        ⟨none, ⟨none, some "2025-01-01", none⟩, ⟨none, some "2025-01-02", none⟩,
          none, none, none⟩).participants = []
    ∧ (GetGoogleCalendarEvents.flattenEvent
        ⟨none, ⟨none, some "2025-01-01", none⟩, ⟨none, some "2025-01-02", none⟩,
          none, none, none⟩).gmeet_link = ""
    ∧ (GetGoogleCalendarEvents.flattenEvent
        ⟨none, ⟨none, some "2025-01-01", none⟩, ⟨none, some "2025-01-02", none⟩,
          none, none, none⟩).meeting_id = none := by
  obtain ⟨h1, -, h3, -, h5, -, h7, h8, h9⟩ :=
    flatten_event_defaults
      ⟨none, ⟨none, some "2025-01-01", none⟩, ⟨none, some "2025-01-02", none⟩, none, none, none⟩
  exact ⟨h1 rfl, h3 rfl, h5 rfl, h7 rfl, h8 rfl, (h9 rfl).1, (h9 rfl).2⟩
